import Mathlib

/-!
Verification of the first-person navigation and orientation controller of the
cave-sounds repository (client/src/components/Player.tsx and its earlier
smoothed variant, plus SongNode.tsx).

Scalars are modelled by an arbitrary linear ordered field (instantiated at ℚ
for concrete evaluation and at ℝ where the source constants involve π).
Square roots and the trigonometric functions used by three.js
(Quaternion.setFromAxisAngle) are passed in as explicit function parameters
so every definition stays computable; theorems state the hypotheses they
need about those parameters (e.g. that the square root of 1 is 1, or that a
cosine/sine pair lies on the unit circle).
-/

/-- A 3-component vector, as THREE.Vector3. -/
structure Vec3 (α : Type) where
  x : α
  y : α
  z : α
  deriving DecidableEq

/-- A quaternion (x, y, z, w), as THREE.Quaternion. -/
structure Quat (α : Type) where
  x : α
  y : α
  z : α
  w : α
  deriving DecidableEq

variable {α : Type}

/-- Vector addition (THREE.Vector3.add). -/
def vadd [Add α] (a b : Vec3 α) : Vec3 α :=
  ⟨a.x + b.x, a.y + b.y, a.z + b.z⟩

/-- Vector subtraction (THREE.Vector3.sub). -/
def vsub [Sub α] (a b : Vec3 α) : Vec3 α :=
  ⟨a.x - b.x, a.y - b.y, a.z - b.z⟩

/-- Scalar multiplication (THREE.Vector3.multiplyScalar). -/
def vscale [Mul α] (s : α) (a : Vec3 α) : Vec3 α :=
  ⟨s * a.x, s * a.y, s * a.z⟩

/-- Cross product (THREE.Vector3.crossVectors). -/
def vcross [Ring α] (a b : Vec3 α) : Vec3 α :=
  ⟨a.y * b.z - a.z * b.y, a.z * b.x - a.x * b.z, a.x * b.y - a.y * b.x⟩

/-- Squared length of a vector. -/
def vlengthSq [Ring α] (a : Vec3 α) : α :=
  a.x * a.x + a.y * a.y + a.z * a.z

/-- Length of a vector (THREE.Vector3.length), with the square root supplied
as an explicit function parameter sqrtF. -/
def vlength [Ring α] (sqrtF : α → α) (a : Vec3 α) : α :=
  sqrtF (vlengthSq a)

/-- Normalization (THREE.Vector3.normalize): divides by the length, or by 1
when the length is 0 (three.js divides by length-or-1). -/
def vnormalize [Field α] [DecidableEq α] (sqrtF : α → α) (a : Vec3 α) : Vec3 α :=
  let l := vlength sqrtF a
  if l = 0 then a else vscale (1 / l) a

/-- Quaternion product (THREE.Quaternion.multiplyQuaternions, Hamilton
product in the order a * b). -/
def quatMul [Ring α] (a b : Quat α) : Quat α :=
  ⟨a.x * b.w + a.w * b.x + a.y * b.z - a.z * b.y,
   a.y * b.w + a.w * b.y + a.z * b.x - a.x * b.z,
   a.z * b.w + a.w * b.z + a.x * b.y - a.y * b.x,
   a.w * b.w - a.x * b.x - a.y * b.y - a.z * b.z⟩

/-- Quaternion conjugate. -/
def quatConj [Neg α] (q : Quat α) : Quat α :=
  ⟨-q.x, -q.y, -q.z, q.w⟩

/-- Rotation of a vector by a quaternion (THREE.Vector3.applyQuaternion):
the vector part of q * (v, 0) * conj q. -/
def applyQuaternion [Ring α] (q : Quat α) (v : Vec3 α) : Vec3 α :=
  let r := quatMul (quatMul q ⟨v.x, v.y, v.z, 0⟩) (quatConj q)
  ⟨r.x, r.y, r.z⟩

/-- THREE.Quaternion.setFromAxisAngle: for a unit axis and an angle θ the
quaternion is (axis * sin(θ/2), cos(θ/2)).  The half-angle cosine and sine
are supplied as function parameters hc and hs (hc θ stands for cos(θ/2) and
hs θ for sin(θ/2)). -/
def setFromAxisAngle [Mul α] (hc hs : α → α) (axis : Vec3 α) (angle : α) : Quat α :=
  ⟨axis.x * hs angle, axis.y * hs angle, axis.z * hs angle, hc angle⟩

/-- The identity quaternion; THREE.Quaternion.setFromEuler at Euler(0,0,0)
produces it (cos 0 = 1, sin 0 = 0). -/
def quatIdentity [Zero α] [One α] : Quat α :=
  ⟨0, 0, 0, 1⟩

/-- JavaScript-style clamping Math.max(lo, Math.min(hi, x)), as written in
the source. -/
def jsClamp [LinearOrder α] (lo hi x : α) : α :=
  max lo (min hi x)

/-- THREE.MathUtils.lerp as implemented in three.js: (1 - t) * x + t * y.
The interpolation parameter t is NOT clamped. -/
def mathLerp [Ring α] (x y t : α) : α :=
  (1 - t) * x + t * y

/-- Concrete square-root stand-in used for closed evaluations: correct on
the only argument (1) the evaluated scenarios feed it. -/
def sqrtOne (a : ℚ) : ℚ :=
  if a = 1 then 1 else 0

/-- Concrete half-angle cosine used in witnesses: the constant 4/5 (part of
a rational point on the unit circle). -/
def hcW (_ : ℚ) : ℚ := 4 / 5

/-- Concrete half-angle sine used in witnesses: the constant 3/5. -/
def hsW (_ : ℚ) : ℚ := 3 / 5

namespace Player

/-- Orientation state of Player.tsx (the non-smoothed variant): the
accumulated yaw and pitch scalars and the camera quaternion. -/
structure PState (α : Type) where
  yaw : α
  pitch : α
  quat : Quat α
  deriving DecidableEq

/-- handleMouseMove of Player.tsx (lines 75-137): while pointer lock is
held, scales the raw movement by sensitivity 0.002, clamps each scaled
delta to ±0.05, subtracts the clamped deltas from yaw/pitch, clamps pitch
to [minP, maxP] (the source constants are MIN_PITCH = -π/2 and
MAX_PITCH = π/2, passed here as parameters), and rebuilds the camera
quaternion from the absolute yaw and pitch as
yawQuaternion(0,1,0) * pitchQuaternion(1,0,0). -/
def handleMouseMove [LinearOrderedField α] (hc hs : α → α) (minP maxP : α)
    (locked : Bool) (s : PState α) (dx dy : α) : PState α :=
  if locked then
    let sensitivity : α := 1 / 500
    let maxDelta : α := 1 / 20
    let rawMouseX := dx * sensitivity
    let rawMouseY := dy * sensitivity
    let mouseX := jsClamp (-maxDelta) maxDelta rawMouseX
    let mouseY := jsClamp (-maxDelta) maxDelta rawMouseY
    let yaw1 := s.yaw - mouseX
    let pitch1 := jsClamp minP maxP (s.pitch - mouseY)
    let yawQuaternion := setFromAxisAngle hc hs ⟨0, 1, 0⟩ yaw1
    let pitchQuaternion := setFromAxisAngle hc hs ⟨1, 0, 0⟩ pitch1
    ⟨yaw1, pitch1, quatMul yawQuaternion pitchQuaternion⟩
  else s

/-- The orientation Player.tsx derives from an absolute (yaw, pitch) pair:
a rotation of yaw about the world up axis (0,1,0) composed with a rotation
of pitch about the x axis (applied first, hence about the local right
axis of the yawed frame). -/
def orientationOf [Ring α] (hc hs : α → α) (yaw pitch : α) : Quat α :=
  quatMul (setFromAxisAngle hc hs ⟨0, 1, 0⟩ yaw)
    (setFromAxisAngle hc hs ⟨1, 0, 0⟩ pitch)

/-- The six logical movement keys of Player.tsx. -/
structure Keys where
  forward : Bool
  backward : Bool
  leftward : Bool
  rightward : Bool
  upward : Bool
  downward : Bool
  deriving DecidableEq

/-- Keys with only forward held. -/
def forwardKeys : Keys :=
  ⟨true, false, false, false, false, false⟩

/-- Camera world direction (THREE.Object3D.getWorldDirection): the vector
(0,0,-1) rotated by the camera quaternion, normalized. -/
def getWorldDirection [LinearOrderedField α] (sqrtF : α → α) (q : Quat α) : Vec3 α :=
  vnormalize sqrtF (applyQuaternion q ⟨0, 0, -1⟩)

/-- The per-axis boundary clamp of Player.tsx useFrame (lines 227-229):
x and z to [-boundary, boundary], y to [floorLevel, heightLimit]. -/
def clampPosition [LinearOrder α] [Neg α] (boundary heightLimit floorLevel : α)
    (p : Vec3 α) : Vec3 α :=
  ⟨jsClamp (-boundary) boundary p.x,
   jsClamp floorLevel heightLimit p.y,
   jsClamp (-boundary) boundary p.z⟩

/-- Result of one frame of Player.tsx useFrame: the clamped player
position, the velocity after damping, and the camera position. -/
structure FrameOut (α : Type) where
  pos : Vec3 α
  vel : Vec3 α
  cameraPos : Vec3 α
  deriving DecidableEq

/-- One frame of the movement part of Player.tsx useFrame (lines 163-243):
builds the movement direction from the camera basis and the held keys,
normalizes it, adds direction * moveSpeed * delta to the velocity when it
is nonzero, multiplies the velocity by the damping factor 0.9, advances the
position, clamps it per axis (boundary 50, height limit 30, floor -10), and
places the camera at the clamped position raised by the eye height 1.6. -/
def useFrame [LinearOrderedField α] (sqrtF : α → α) (keys : Keys) (q : Quat α)
    (pos vel : Vec3 α) (delta : α) : FrameOut α :=
  let moveSpeed : α := 8
  let dampening : α := 9 / 10
  let forward := vnormalize sqrtF (getWorldDirection sqrtF q)
  let right := vnormalize sqrtF (vcross forward ⟨0, 1, 0⟩)
  let up : Vec3 α := ⟨0, 1, 0⟩
  let d0 : Vec3 α := ⟨0, 0, 0⟩
  let d1 := if keys.forward then vadd d0 forward else d0
  let d2 := if keys.backward then vsub d1 forward else d1
  let d3 := if keys.leftward then vsub d2 right else d2
  let d4 := if keys.rightward then vadd d3 right else d3
  let d5 := if keys.upward then vadd d4 up else d4
  let d6 := if keys.downward then vsub d5 up else d5
  let vel1 :=
    if 0 < vlength sqrtF d6 then
      vadd vel (vscale (moveSpeed * delta) (vnormalize sqrtF d6))
    else vel
  let vel2 := vscale dampening vel1
  let newPosition := clampPosition 50 30 (-10) (vadd pos vel2)
  ⟨newPosition, vel2, ⟨newPosition.x, newPosition.y + 8 / 5, newPosition.z⟩⟩

/-- The one-time session-start camera placement of Player.tsx useEffect
(line 46): the player position raised by 2 on the vertical axis. -/
def initialCameraPos [Add α] [OfNat α 2] (p : Vec3 α) : Vec3 α :=
  ⟨p.x, p.y + 2, p.z⟩

/-- Iterated frames of Player.tsx useFrame with fixed keys, camera
quaternion and delta, tracking (position, velocity). -/
def frames [LinearOrderedField α] (sqrtF : α → α) (keys : Keys) (q : Quat α)
    (pos vel : Vec3 α) (delta : α) : Nat → Vec3 α × Vec3 α
  | 0 => (pos, vel)
  | n + 1 =>
    let pv := frames sqrtF keys q pos vel delta n
    let o := useFrame sqrtF keys q pv.1 pv.2 delta
    (o.pos, o.vel)

end Player

namespace Smooth

/-- Orientation state of the smoothed Player variant (src/unnamed/part_003):
target and current yaw/pitch, the camera quaternion, and the pointer-lock
flag. -/
structure LookState (α : Type) where
  targetYaw : α
  targetPitch : α
  currentYaw : α
  currentPitch : α
  quat : Quat α
  locked : Bool
  deriving DecidableEq

/-- handleMouseMove of part_003 (lines 79-113): while pointer lock is held,
scales the raw movement by sensitivity 0.0015, clamps each scaled delta to
±0.025, subtracts the clamped deltas from the target yaw/pitch, and clamps
the target pitch to [minP, maxP] (the source constants are MIN_PITCH = -π/2
and MAX_PITCH = π/2, passed here as parameters).  The current angles and
the quaternion are untouched; rotation is applied later in useFrame. -/
def handleMouseMove [LinearOrderedField α] (minP maxP : α) (s : LookState α)
    (dx dy : α) : LookState α :=
  if s.locked then
    let sensitivity : α := 3 / 2000
    let maxDelta : α := 1 / 40
    let rawMouseX := dx * sensitivity
    let rawMouseY := dy * sensitivity
    let mouseX := jsClamp (-maxDelta) maxDelta rawMouseX
    let mouseY := jsClamp (-maxDelta) maxDelta rawMouseY
    let ty := s.targetYaw - mouseX
    let tp := jsClamp minP maxP (s.targetPitch - mouseY)
    { s with targetYaw := ty, targetPitch := tp }
  else s

/-- A sequence of mouse-move events (dx, dy) folded through
handleMouseMove. -/
def mouseMoves [LinearOrderedField α] (minP maxP : α) (s : LookState α)
    (evs : List (α × α)) : LookState α :=
  evs.foldl (fun st e => handleMouseMove minP maxP st e.1 e.2) s

/-- The per-update pitch delta actually applied by handleMouseMove for a
raw vertical movement dy: the raw value scaled by sensitivity 0.0015, then
clamped to ±0.025. -/
def appliedDelta [LinearOrderedField α] (raw : α) : α :=
  jsClamp (-(1 / 40)) (1 / 40) (raw * (3 / 2000))

/-- Browser side effects a key-down handler can request. -/
inductive Fx where
  | requestLock : Fx
  | exitLock : Fx
  deriving DecidableEq

/-- handleKeyDown of part_003 (lines 58-73), as the registered listener
actually behaves.  The listener is added once inside a useEffect whose
dependency array is [camera], and the react-three-fiber camera is a stable
instance, so the effect never re-runs; the isPointerLocked the guards read
is therefore the value the closure captured when the listener was
registered — passed here as capturedLocked — and NOT the live capture
state stored in the LookState (which handleMouseMove reads through the
live document.pointerLockElement test instead).  L requests pointer lock
when the captured flag is false, Escape requests exit when it is true
(both only request the asynchronous browser transition, so the stored
state is unchanged here), and R resets target and current yaw/pitch to 0
and the camera quaternion to the identity when the captured flag is
true. -/
def handleKeyDown [LinearOrderedField α] (capturedLocked : Bool) (key : String)
    (s : LookState α) : LookState α × List Fx :=
  let fx :=
    if (key = "l" ∨ key = "L") ∧ capturedLocked = false then [Fx.requestLock]
    else if key = "Escape" ∧ capturedLocked = true then [Fx.exitLock]
    else []
  if (key = "r" ∨ key = "R") ∧ capturedLocked = true then
    ({ s with targetYaw := 0, targetPitch := 0, currentYaw := 0,
              currentPitch := 0, quat := quatIdentity }, fx)
  else (s, fx)

/-- The isPointerLocked value the keydown listener closed over at
registration time: the initial useState(false).  Because the [camera]
effect never re-runs, this is the value the registered listener reads
forever, in both capture states. -/
def registeredCapturedLocked : Bool := false

/-- The smoothing and rotation block of part_003 useFrame (lines 142-173):
while locked, interpolates the current yaw/pitch toward the targets with
THREE.MathUtils.lerp at parameter delta * 8 and rebuilds the camera
quaternion from the interpolated absolute angles. -/
def useFrameLook [LinearOrderedField α] (hc hs : α → α) (s : LookState α)
    (delta : α) : LookState α :=
  if s.locked then
    let lerpSpeed : α := 8
    let cy := mathLerp s.currentYaw s.targetYaw (delta * lerpSpeed)
    let cp := mathLerp s.currentPitch s.targetPitch (delta * lerpSpeed)
    let yawQuaternion := setFromAxisAngle hc hs ⟨0, 1, 0⟩ cy
    let pitchQuaternion := setFromAxisAngle hc hs ⟨1, 0, 0⟩ cp
    { s with currentYaw := cy, currentPitch := cp,
             quat := quatMul yawQuaternion pitchQuaternion }
  else s

/-- JavaScript number addition with NaN propagation: none stands for NaN. -/
def jsAdd [Add α] : Option α → Option α → Option α
  | some a, some b => some (a + b)
  | _, _ => none

/-- JavaScript number subtraction with NaN propagation. -/
def jsSub [Sub α] : Option α → Option α → Option α
  | some a, some b => some (a - b)
  | _, _ => none

/-- JavaScript number multiplication with NaN propagation. -/
def jsMul [Mul α] : Option α → Option α → Option α
  | some a, some b => some (a * b)
  | _, _ => none

/-- JavaScript Math.min: returns NaN when either argument is NaN. -/
def jsMin [LinearOrder α] : Option α → Option α → Option α
  | some a, some b => some (min a b)
  | _, _ => none

/-- JavaScript Math.max: returns NaN when either argument is NaN. -/
def jsMax [LinearOrder α] : Option α → Option α → Option α
  | some a, some b => some (max a b)
  | _, _ => none

/-- Orientation state of part_003 over JavaScript numbers, where a field
holding none stands for NaN.  The quaternion is untouched by the handler
and omitted. -/
structure LookStateN (α : Type) where
  targetYaw : Option α
  targetPitch : Option α
  currentYaw : Option α
  currentPitch : Option α
  locked : Bool
  deriving DecidableEq

/-- handleMouseMove of part_003 interpreted over JavaScript numbers with
NaN (none) propagation, line for line the same computation as
Smooth.handleMouseMove.  JavaScript arithmetic on NaN never throws, so the
try/catch of the source never fires on a NaN sample and no other code path
runs. -/
def handleMouseMoveN [LinearOrderedField α] (minP maxP : Option α)
    (s : LookStateN α) (dx dy : Option α) : LookStateN α :=
  if s.locked then
    let sensitivity : Option α := some (3 / 2000)
    let maxDelta : Option α := some (1 / 40)
    let negMaxDelta : Option α := some (-(1 / 40))
    let rawMouseX := jsMul dx sensitivity
    let rawMouseY := jsMul dy sensitivity
    let mouseX := jsMax negMaxDelta (jsMin maxDelta rawMouseX)
    let mouseY := jsMax negMaxDelta (jsMin maxDelta rawMouseY)
    let ty := jsSub s.targetYaw mouseX
    let tp := jsMax minP (jsMin maxP (jsSub s.targetPitch mouseY))
    { s with targetYaw := ty, targetPitch := tp }
  else s

end Smooth

/-- A discoverable song node as the interaction check sees it: id,
position, and whether it has been discovered. -/
structure SongTarget where
  id : String
  pos : Vec3 ℚ
  discovered : Bool
  deriving DecidableEq

/-- Events the interaction check can emit. -/
inductive NodeEvent where
  | discoverEvt : String → NodeEvent
  | activateEvt : String → NodeEvent
  deriving DecidableEq

/-- Squared Euclidean distance between a node position and the player
position, the square of distanceToPlayer of SongNode.tsx (lines 52-54). -/
def distanceToPlayerSq (nodePos playerPos : Vec3 ℚ) : ℚ :=
  (nodePos.x - playerPos.x) ^ 2 + (nodePos.y - playerPos.y) ^ 2 +
    (nodePos.z - playerPos.z) ^ 2

/-- Modelled from the spec: checkSongNodeInteraction of the
useMusicExplorer store, which is not under src/ (only its callers are).
Per the spec contract, for each target it computes the Euclidean distance
to the player position and, when the distance is below the interaction
radius 3, emits Discover(id) for an undiscovered target and Activate(id)
for a discovered one.  The strict comparison at radius 3 matches the
in-repository proximity test of SongNode.tsx (distanceToPlayer < 3).  The
distance comparison is expressed on squares, equivalent for the nonneg
radius; the claim theorem restates it through Real.sqrt. -/
def checkSongNodeInteraction (playerPos : Vec3 ℚ) (targets : List SongTarget) :
    List NodeEvent :=
  targets.filterMap fun t =>
    if distanceToPlayerSq t.pos playerPos < 3 ^ 2 then
      some (if t.discovered then NodeEvent.activateEvt t.id
            else NodeEvent.discoverEvt t.id)
    else none

section ClampLemmas

variable [LinearOrder α]

/-- Clamping twice is the same as clamping once, for every pair of bounds. -/
theorem jsClamp_idem (lo hi x : α) : jsClamp lo hi (jsClamp lo hi x) = jsClamp lo hi x := by
  unfold jsClamp
  rcases le_total lo hi with h | h
  · have h1 : lo ≤ max lo (min hi x) := le_max_left _ _
    have h2 : max lo (min hi x) ≤ hi := max_le h (min_le_left _ _)
    rw [min_eq_right h2, max_eq_right h1]
  · have h2 : min hi x ≤ lo := le_trans (min_le_left _ _) h
    rw [max_eq_left h2, min_eq_left h, max_eq_left h]

/-- Clamping a value already inside the bounds is a no-op. -/
theorem jsClamp_of_mem {lo hi x : α} (h1 : lo ≤ x) (h2 : x ≤ hi) :
    jsClamp lo hi x = x := by
  unfold jsClamp
  rw [min_eq_right h2, max_eq_right h1]

/-- The clamped value is at least the lower bound. -/
theorem le_jsClamp (lo hi x : α) : lo ≤ jsClamp lo hi x :=
  le_max_left _ _

/-- The clamped value is at most the upper bound, when the bounds are
ordered. -/
theorem jsClamp_le {lo hi : α} (h : lo ≤ hi) (x : α) : jsClamp lo hi x ≤ hi :=
  max_le h (min_le_left _ _)

end ClampLemmas

/-- C6: the boundary clamp maps each coordinate independently into its
configured range (x and z into [-boundary, boundary], y into
[floorLevel, ceilingLevel]), returns an already-in-bounds position
unchanged, and is idempotent; and with boundary = 50 and position.x = 48,
one frame of forward input that would carry x past 50 (here: prior
velocity 5 along +x, camera yawed so that forward points into +x) yields
x = 50 exactly. -/
theorem c6_boundary_clamp :
    (∀ (b hl fl : ℚ) (p : Vec3 ℚ),
      Player.clampPosition b hl fl (Player.clampPosition b hl fl p) =
        Player.clampPosition b hl fl p)
    ∧ (∀ (b hl fl : ℚ) (p : Vec3 ℚ), -b ≤ p.x → p.x ≤ b → fl ≤ p.y → p.y ≤ hl →
        -b ≤ p.z → p.z ≤ b → Player.clampPosition b hl fl p = p)
    ∧ (∀ (b hl fl : ℚ) (p : Vec3 ℚ), 0 ≤ b → fl ≤ hl →
        -b ≤ (Player.clampPosition b hl fl p).x ∧ (Player.clampPosition b hl fl p).x ≤ b ∧
        fl ≤ (Player.clampPosition b hl fl p).y ∧ (Player.clampPosition b hl fl p).y ≤ hl ∧
        -b ≤ (Player.clampPosition b hl fl p).z ∧ (Player.clampPosition b hl fl p).z ≤ b)
    ∧ ((Player.useFrame sqrtOne Player.forwardKeys ⟨0, -(3/5), 0, 4/5⟩
          ⟨48, 0, 0⟩ ⟨5, 0, 0⟩ (1/60)).pos.x = 50
       ∧ 50 < 48 + (Player.useFrame sqrtOne Player.forwardKeys ⟨0, -(3/5), 0, 4/5⟩
          ⟨48, 0, 0⟩ ⟨5, 0, 0⟩ (1/60)).vel.x) := by
  refine ⟨?_, ?_, ?_, ?_⟩
  · intro b hl fl p
    simp only [Player.clampPosition]
    rw [jsClamp_idem, jsClamp_idem, jsClamp_idem]
  · intro b hl fl p h1 h2 h3 h4 h5 h6
    simp only [Player.clampPosition]
    rw [jsClamp_of_mem h1 h2, jsClamp_of_mem h3 h4, jsClamp_of_mem h5 h6]
  · intro b hl fl p hb hfh
    have hbb : -b ≤ b := by linarith
    exact ⟨le_jsClamp _ _ _, jsClamp_le hbb _, le_jsClamp _ _ _, jsClamp_le hfh _,
      le_jsClamp _ _ _, jsClamp_le hbb _⟩
  · constructor <;>
    · simp only [Player.useFrame, Player.forwardKeys, Player.getWorldDirection,
        applyQuaternion, quatMul, quatConj, vnormalize, vlength, vlengthSq, vcross,
        vadd, vsub, vscale, Player.clampPosition, jsClamp, sqrtOne]
      norm_num [min_def, max_def]

/-- Witness for c6_boundary_clamp at concrete bounds and position. -/
theorem c6_boundary_clamp_w :
    Player.clampPosition (50 : ℚ) 30 (-10) ⟨48, 0, 0⟩ = ⟨48, 0, 0⟩ ∧
    (-50 ≤ (Player.clampPosition (50 : ℚ) 30 (-10) ⟨52, 0, 0⟩).x ∧
      (Player.clampPosition (50 : ℚ) 30 (-10) ⟨52, 0, 0⟩).x ≤ 50) :=
  ⟨c6_boundary_clamp.2.1 50 30 (-10) ⟨48, 0, 0⟩ (by norm_num) (by norm_num)
      (by norm_num) (by norm_num) (by norm_num) (by norm_num),
    (c6_boundary_clamp.2.2.1 50 30 (-10) ⟨52, 0, 0⟩ (by norm_num) (by norm_num)).1,
    (c6_boundary_clamp.2.2.1 50 30 (-10) ⟨52, 0, 0⟩ (by norm_num) (by norm_num)).2.1⟩

/-- C10: after every frame of the per-frame loop the camera position equals
the clamped player position offset by exactly +1.6 on the vertical axis,
with x and z equal to the player's, while the one-time session-start
placement offsets the vertical axis by +2 instead. -/
theorem c10_camera_offset :
    (∀ (sqrtF : ℚ → ℚ) (keys : Player.Keys) (q : Quat ℚ) (pos vel : Vec3 ℚ) (delta : ℚ),
      (Player.useFrame sqrtF keys q pos vel delta).cameraPos =
        ⟨(Player.useFrame sqrtF keys q pos vel delta).pos.x,
         (Player.useFrame sqrtF keys q pos vel delta).pos.y + 8 / 5,
         (Player.useFrame sqrtF keys q pos vel delta).pos.z⟩)
    ∧ (∀ p : Vec3 ℚ, Player.initialCameraPos p = ⟨p.x, p.y + 2, p.z⟩)
    ∧ (∀ p : Vec3 ℚ, Player.initialCameraPos p ≠ ⟨p.x, p.y + 8 / 5, p.z⟩) := by
  refine ⟨fun sqrtF keys q pos vel delta => rfl, fun p => rfl, fun p hEq => ?_⟩
  have hy := congrArg Vec3.y hEq
  simp only [Player.initialCameraPos] at hy
  linarith

/-- C9 counterexample: pressing R never resets.  The registered listener
reads the stale captured isPointerLocked = false, so even with live
capture Active (locked = true in the state) and accumulated
targetYaw = 1, the state comes back unchanged and the yaw is not 0 —
refuting the claim that invoking reset yields (0, 0) from every prior
state. -/
theorem c9_reset_cx :
    (Smooth.handleKeyDown Smooth.registeredCapturedLocked "R"
        (⟨1, 1, 1, 1, quatIdentity, true⟩ : Smooth.LookState ℚ)).1 =
      ⟨1, 1, 1, 1, quatIdentity, true⟩ ∧ (1 : ℚ) ≠ 0 := by
  constructor
  · rfl
  · norm_num

/-- C9 (amended): the reset operation never fires.  The keydown listener
is registered once (its useEffect dependency [camera] never changes) and
closes over the initial isPointerLocked = false, so its R guard reads a
permanently stale false: for every key the look state is returned
unchanged in either capture state, and the R key additionally requests no
pointer-lock transition, so the capture state is unchanged too. -/
theorem c9_reset [LinearOrderedField α] (s : Smooth.LookState α) :
    (∀ key : String,
      (Smooth.handleKeyDown Smooth.registeredCapturedLocked key s).1 = s)
    ∧ Smooth.handleKeyDown Smooth.registeredCapturedLocked "r" s = (s, [])
    ∧ Smooth.handleKeyDown Smooth.registeredCapturedLocked "R" s = (s, []) := by
  refine ⟨fun key => ?_, ?_, ?_⟩
  · simp only [Smooth.handleKeyDown, Smooth.registeredCapturedLocked]
    split_ifs <;> simp_all
  · rfl
  · rfl

/-- C4: the applied per-update look delta is the raw pointer delta first
scaled by sensitivity (0.0015) and then hard-clamped to ±maxDeltaPerFrame
(0.025) before being accumulated into the target yaw/pitch; the applied
delta always lies in [-0.025, 0.025], and a raw delta whose scaled value is
0.2 contributes exactly 0.025. -/
theorem c4_scale_then_clamp :
    (∀ (minP maxP : ℚ) (s : Smooth.LookState ℚ) (dx dy : ℚ), s.locked = true →
      (Smooth.handleMouseMove minP maxP s dx dy).targetYaw =
          s.targetYaw - Smooth.appliedDelta dx
        ∧ (Smooth.handleMouseMove minP maxP s dx dy).targetPitch =
          jsClamp minP maxP (s.targetPitch - Smooth.appliedDelta dy))
    ∧ (∀ raw : ℚ, -(1/40) ≤ Smooth.appliedDelta raw ∧ Smooth.appliedDelta raw ≤ 1/40)
    ∧ (∀ raw : ℚ, raw * (3/2000) = 1/5 → Smooth.appliedDelta raw = 1/40) := by
  refine ⟨?_, ?_, ?_⟩
  · intro minP maxP s dx dy h
    obtain ⟨ty, tp, cy, cp, q, l⟩ := s
    cases h
    exact ⟨rfl, rfl⟩
  · intro raw
    refine ⟨le_jsClamp _ _ _, jsClamp_le (by norm_num) _⟩
  · intro raw h
    unfold Smooth.appliedDelta jsClamp
    rw [h]
    norm_num [min_def, max_def]

/-- Witness for c4_scale_then_clamp: raw delta 400/3, scaled value
400/3 * 0.0015 = 0.2, applied contribution exactly 0.025. -/
theorem c4_scale_then_clamp_w :
    (Smooth.handleMouseMove (-2) 2 (⟨0, 0, 0, 0, quatIdentity, true⟩ : Smooth.LookState ℚ)
        (400/3) 0).targetYaw = 0 - Smooth.appliedDelta (400/3)
    ∧ Smooth.appliedDelta ((400 : ℚ)/3) = 1/40 :=
  ⟨(c4_scale_then_clamp.1 (-2) 2 ⟨0, 0, 0, 0, quatIdentity, true⟩ (400/3) 0 rfl).1,
    c4_scale_then_clamp.2.2 (400/3) (by norm_num)⟩

/-- C5 counterexample: the smoothing step uses THREE.MathUtils.lerp with
the unclamped factor delta * lerpSpeed.  At delta = 1/4 (factor 2) a state
with currentYaw = 0 and targetYaw = 1 is advanced to currentYaw = 2: not
the value 1 the claimed min(1, dt * rate) formula yields, and strictly
beyond the target, so the no-overshoot claim fails on the code. -/
theorem c5_lerp_cx :
    (Smooth.useFrameLook hcW hsW
        (⟨1, 0, 0, 0, quatIdentity, true⟩ : Smooth.LookState ℚ) (1/4)).currentYaw = 2
    ∧ ((0 : ℚ) + (1 - 0) * min 1 ((1/4) * 8)) = 1
    ∧ (1 : ℚ) < 2 := by
  refine ⟨?_, ?_, ?_⟩
  · simp only [Smooth.useFrameLook, mathLerp]
    norm_num
  · norm_num [min_def]
  · norm_num

/-- C5 (amended): with smoothing enabled the current yaw and pitch are
advanced toward the targets by exactly
current += (target - current) * (dt * smoothingRate), with no clamping of
the interpolation factor; the current angle stays between the old current
and the target only under the additional assumption
0 <= dt * smoothingRate <= 1 (for larger dt it can overshoot, as the
counterexample shows). -/
theorem c5_smoothing_step [LinearOrderedField α] (hc hs : α → α)
    (s : Smooth.LookState α) (delta : α) (h : s.locked = true) :
    ((Smooth.useFrameLook hc hs s delta).currentYaw =
        s.currentYaw + (s.targetYaw - s.currentYaw) * (delta * 8)
      ∧ (Smooth.useFrameLook hc hs s delta).currentPitch =
        s.currentPitch + (s.targetPitch - s.currentPitch) * (delta * 8))
    ∧ (0 ≤ delta * 8 → delta * 8 ≤ 1 →
        min s.currentYaw s.targetYaw ≤ (Smooth.useFrameLook hc hs s delta).currentYaw
        ∧ (Smooth.useFrameLook hc hs s delta).currentYaw ≤
            max s.currentYaw s.targetYaw) := by
  obtain ⟨ty, tp, cy, cp, q, l⟩ := s
  cases h
  simp only [Smooth.useFrameLook, mathLerp, if_true]
  refine ⟨⟨by ring, by ring⟩, fun h0 h1 => ?_⟩
  constructor
  · rcases le_total cy ty with hle | hle
    · rw [min_eq_left hle]
      nlinarith
    · rw [min_eq_right hle]
      nlinarith
  · rcases le_total cy ty with hle | hle
    · rw [max_eq_right hle]
      nlinarith
    · rw [max_eq_left hle]
      nlinarith

/-- Witness for c5_smoothing_step at delta = 1/10 (factor 4/5). -/
theorem c5_smoothing_step_w :
    ((Smooth.useFrameLook hcW hsW (⟨1, 0, 0, 0, quatIdentity, true⟩ : Smooth.LookState ℚ)
        (1/10)).currentYaw = 0 + (1 - 0) * ((1/10) * 8))
    ∧ min (0 : ℚ) 1 ≤ (Smooth.useFrameLook hcW hsW
        (⟨1, 0, 0, 0, quatIdentity, true⟩ : Smooth.LookState ℚ) (1/10)).currentYaw :=
  ⟨(c5_smoothing_step hcW hsW ⟨1, 0, 0, 0, quatIdentity, true⟩ (1/10) rfl).1.1,
    ((c5_smoothing_step hcW hsW ⟨1, 0, 0, 0, quatIdentity, true⟩ (1/10) rfl).2
      (by norm_num) (by norm_num)).1⟩

/-- C8 counterexample: the handler has no finiteness guard, so a NaN dx
(modelled by none) is not discarded: from a state with targetYaw = 0 the
update leaves targetYaw = NaN, not its prior value, refuting the claim
that the whole sample is dropped and yaw is unchanged. -/
theorem c8_nan_cx :
    (Smooth.handleMouseMoveN (some (-(157/100))) (some (157/100))
        (⟨some 0, some 0, some 0, some 0, true⟩ : Smooth.LookStateN ℚ)
        none (some 0)).targetYaw = none
    ∧ (none : Option ℚ) ≠ some 0 := by
  exact ⟨rfl, fun h => Option.noConfusion h⟩

/-- C8 (amended): a NaN component of a delta sample is not discarded: NaN
propagates through the sensitivity scaling and the Math.max/Math.min
clamping into the stored target yaw (for NaN dx) or target pitch (for NaN
dy), leaving that angle non-finite; JavaScript arithmetic on NaN throws
nothing, so the catch-reset never runs and the capture state is
unchanged. -/
theorem c8_nan_propagation [LinearOrderedField α] (minP maxP : Option α)
    (s : Smooth.LookStateN α) (dx dy : Option α) (h : s.locked = true) :
    (Smooth.handleMouseMoveN minP maxP s none dy).targetYaw = none
    ∧ (Smooth.handleMouseMoveN minP maxP s dx none).targetPitch = none
    ∧ (Smooth.handleMouseMoveN minP maxP s none dy).locked = s.locked := by
  obtain ⟨ty, tp, cy, cp, l⟩ := s
  cases h
  refine ⟨?_, ?_, rfl⟩
  · cases ty <;> rfl
  · cases tp <;> cases minP <;> cases maxP <;> rfl

/-- Witness for c8_nan_propagation at a concrete locked state. -/
theorem c8_nan_propagation_w :
    (Smooth.handleMouseMoveN (some (-(157/100))) (some (157/100))
        (⟨some 1, some 1, some 0, some 0, true⟩ : Smooth.LookStateN ℚ)
        (some 2) none).targetPitch = none :=
  (c8_nan_propagation (some (-(157/100))) (some (157/100))
    ⟨some 1, some 1, some 0, some 0, true⟩ (some 2) none rfl).2.1

/-- C7: the interaction check emits an event for a target exactly when the
Euclidean distance from the player to the target is strictly below the
interaction radius 3; the event is Discover(id) for an undiscovered target
and Activate(id) otherwise; at distance 2.99 an undiscovered target yields
exactly one Discover event and at distance 3.01 nothing is emitted. -/
theorem c7_interaction_events :
    (∀ (pp : Vec3 ℚ) (t : SongTarget),
      checkSongNodeInteraction pp [t] ≠ [] ↔
        Real.sqrt ((distanceToPlayerSq t.pos pp : ℚ) : ℝ) < 3)
    ∧ (∀ (pp : Vec3 ℚ) (t : SongTarget), distanceToPlayerSq t.pos pp < 3 ^ 2 →
        checkSongNodeInteraction pp [t] =
          [if t.discovered then NodeEvent.activateEvt t.id else NodeEvent.discoverEvt t.id])
    ∧ checkSongNodeInteraction ⟨299/100, 0, 0⟩ [⟨"n1", ⟨0, 0, 0⟩, false⟩] =
        [NodeEvent.discoverEvt "n1"]
    ∧ checkSongNodeInteraction ⟨301/100, 0, 0⟩ [⟨"n1", ⟨0, 0, 0⟩, false⟩] = [] := by
  have hbridge : ∀ (pp : Vec3 ℚ) (t : SongTarget),
      Real.sqrt ((distanceToPlayerSq t.pos pp : ℚ) : ℝ) < 3 ↔
        distanceToPlayerSq t.pos pp < 3 ^ 2 := by
    intro pp t
    rw [show ((3:ℝ)) = (((3:ℚ) : ℝ)) by norm_num, Real.sqrt_lt' (by norm_num)]
    constructor
    · intro h
      exact_mod_cast h
    · intro h
      exact_mod_cast h
  refine ⟨?_, ?_, ?_, ?_⟩
  · intro pp t
    rw [hbridge]
    by_cases hd : distanceToPlayerSq t.pos pp < 3 ^ 2 <;>
      simp [checkSongNodeInteraction, hd]
  · intro pp t hd
    simp [checkSongNodeInteraction, hd]
  · simp only [checkSongNodeInteraction, distanceToPlayerSq, List.filterMap]
    norm_num
  · simp only [checkSongNodeInteraction, distanceToPlayerSq, List.filterMap]
    norm_num

/-- Witness for c7_interaction_events: the distance-2.99 undiscovered
target, fed through the second conjunct. -/
theorem c7_interaction_events_w :
    checkSongNodeInteraction ⟨0, 0, 299/100⟩ [⟨"n2", ⟨0, 0, 0⟩, true⟩] =
      [if (true : Bool) then NodeEvent.activateEvt "n2" else NodeEvent.discoverEvt "n2"] :=
  c7_interaction_events.2.1 ⟨0, 0, 299/100⟩ ⟨"n2", ⟨0, 0, 0⟩, true⟩
    (by norm_num [distanceToPlayerSq])

/-- C2: on every orientation update (pointer lock held), the camera
quaternion is rebuilt from the absolute accumulated yaw and pitch scalars
alone: it equals orientationOf applied to the updated (yaw, pitch); two
states agreeing on (yaw, pitch) but carrying arbitrary different previous
quaternions produce the same new quaternion (no incremental multiplication
of the previous frame's rotation); and, whenever the yaw half-angle
cosine/sine pair lies on the unit circle, the composition equals a rotation
of yaw about the world up axis (0,1,0) followed by a rotation of pitch
about the resulting local right axis (the yaw-rotated (1,0,0)). -/
theorem c2_fresh_orientation [LinearOrderedField α] :
    (∀ (hc hs : α → α) (minP maxP : α) (s : Player.PState α) (dx dy : α),
      (Player.handleMouseMove hc hs minP maxP true s dx dy).quat =
        Player.orientationOf hc hs
          (Player.handleMouseMove hc hs minP maxP true s dx dy).yaw
          (Player.handleMouseMove hc hs minP maxP true s dx dy).pitch)
    ∧ (∀ (hc hs : α → α) (minP maxP : α) (s1 s2 : Player.PState α) (dx dy : α),
        s1.yaw = s2.yaw → s1.pitch = s2.pitch →
        (Player.handleMouseMove hc hs minP maxP true s1 dx dy).quat =
          (Player.handleMouseMove hc hs minP maxP true s2 dx dy).quat)
    ∧ (∀ (hc hs : α → α) (y p : α), hc y ^ 2 + hs y ^ 2 = 1 →
        Player.orientationOf hc hs y p =
          quatMul
            (setFromAxisAngle hc hs
              (applyQuaternion (setFromAxisAngle hc hs ⟨0, 1, 0⟩ y) ⟨1, 0, 0⟩) p)
            (setFromAxisAngle hc hs ⟨0, 1, 0⟩ y)) := by
  refine ⟨?_, ?_, ?_⟩
  · intro hc hs minP maxP s dx dy
    rfl
  · intro hc hs minP maxP s1 s2 dx dy hy hp
    obtain ⟨y1, p1, q1⟩ := s1
    obtain ⟨y2, p2, q2⟩ := s2
    simp only at hy hp
    subst hy
    subst hp
    rfl
  · intro hc hs y p h
    simp only [Player.orientationOf, setFromAxisAngle, applyQuaternion, quatMul,
      quatConj, Quat.mk.injEq]
    refine ⟨?_, ?_, ?_, ?_⟩
    · linear_combination (-(hs p * hc y)) * h
    · ring
    · linear_combination (hs p * hs y) * h
    · ring

/-- Witness for c2_fresh_orientation with a rational unit-circle pair
(4/5, 3/5) and concrete states differing only in the stored quaternion. -/
theorem c2_fresh_orientation_w :
    ((Player.handleMouseMove hcW hsW (-2) 2 true ⟨0, 0, quatIdentity⟩ 1 1).quat =
      Player.orientationOf hcW hsW
        (Player.handleMouseMove hcW hsW (-2) 2 true ⟨0, 0, quatIdentity⟩ 1 1).yaw
        (Player.handleMouseMove hcW hsW (-2) 2 true ⟨0, 0, quatIdentity⟩ 1 1).pitch)
    ∧ ((Player.handleMouseMove hcW hsW (-2) 2 true ⟨0, 0, quatIdentity⟩ 1 1).quat =
        (Player.handleMouseMove hcW hsW (-2) 2 true ⟨0, 0, ⟨1, 2, 3, 4⟩⟩ 1 1).quat)
    ∧ Player.orientationOf hcW hsW 0 0 =
        quatMul
          (setFromAxisAngle hcW hsW
            (applyQuaternion (setFromAxisAngle hcW hsW ⟨0, 1, 0⟩ 0) ⟨1, 0, 0⟩) 0)
          (setFromAxisAngle hcW hsW ⟨0, 1, 0⟩ 0) :=
  ⟨c2_fresh_orientation.1 hcW hsW (-2) 2 ⟨0, 0, quatIdentity⟩ 1 1,
    c2_fresh_orientation.2.1 hcW hsW (-2) 2 ⟨0, 0, quatIdentity⟩ ⟨0, 0, ⟨1, 2, 3, 4⟩⟩ 1 1
      rfl rfl,
    c2_fresh_orientation.2.2 hcW hsW 0 0 (by norm_num [hcW, hsW])⟩

/-- The applied look delta of the smoothed handler is nonnegative for a
nonnegative raw delta (mouse moved downward). -/
theorem appliedDelta_nonneg [LinearOrderedField α] {raw : α} (h : 0 ≤ raw) :
    0 ≤ Smooth.appliedDelta raw := by
  unfold Smooth.appliedDelta jsClamp
  have h0 : 0 ≤ min (1/40 : α) (raw * (3/2000)) :=
    le_min (by norm_num) (by positivity)
  exact le_trans h0 (le_max_right _ _)

/-- Folding a sequence of downward mouse events through the smoothed
handler: starting inside the pitch band, the final target pitch is the
start minus the sum of the applied deltas, floored at the lower pitch
bound. -/
theorem mouseMoves_targetPitch_downward [LinearOrderedField α] {minP maxP : α}
    (hmm : minP ≤ maxP) :
    ∀ (evs : List (α × α)) (s : Smooth.LookState α), s.locked = true →
      minP ≤ s.targetPitch → s.targetPitch ≤ maxP →
      (∀ e ∈ evs, 0 ≤ Smooth.appliedDelta e.2) →
      (Smooth.mouseMoves minP maxP s evs).targetPitch =
        max minP (s.targetPitch - (evs.map (fun e => Smooth.appliedDelta e.2)).sum) := by
  intro evs
  induction evs with
  | nil =>
    intro s hl hlo hhi _
    simp only [Smooth.mouseMoves, List.foldl_nil, List.map_nil, List.sum_nil, sub_zero]
    rw [max_eq_right hlo]
  | cons e rest ih =>
    intro s hl hlo hhi hd
    obtain ⟨ty, tp, cy, cp, q, l⟩ := s
    simp only at hl hlo hhi
    cases hl
    have ha : 0 ≤ Smooth.appliedDelta e.2 := hd e (List.mem_cons_self e rest)
    have ha2 : 0 ≤ max (-(1/40 : α)) (min (1/40) (e.2 * (3/2000))) := by
      have h3 := ha
      unfold Smooth.appliedDelta jsClamp at h3
      exact h3
    have hstep : Smooth.handleMouseMove minP maxP ⟨ty, tp, cy, cp, q, true⟩ e.1 e.2 =
        ⟨ty - Smooth.appliedDelta e.1, max minP (tp - Smooth.appliedDelta e.2),
          cy, cp, q, true⟩ := by
      simp only [Smooth.handleMouseMove, Smooth.appliedDelta, if_true, jsClamp]
      congr 1
      rw [min_eq_right (by linarith : tp - max (-(1/40)) (min (1/40) (e.2 * (3/2000))) ≤ maxP)]
    have hrest : ∀ e2 ∈ rest, 0 ≤ Smooth.appliedDelta e2.2 :=
      fun e2 he2 => hd e2 (List.mem_cons_of_mem e he2)
    have hr : 0 ≤ (rest.map (fun e2 => Smooth.appliedDelta e2.2)).sum := by
      apply List.sum_nonneg
      intro a hamem
      obtain ⟨e2, he2, rfl⟩ := List.mem_map.1 hamem
      exact hrest e2 he2
    have hmain : (Smooth.mouseMoves minP maxP ⟨ty, tp, cy, cp, q, true⟩ (e :: rest)).targetPitch =
        (Smooth.mouseMoves minP maxP
          (⟨ty - Smooth.appliedDelta e.1, max minP (tp - Smooth.appliedDelta e.2),
            cy, cp, q, true⟩ : Smooth.LookState α) rest).targetPitch := by
      simp only [Smooth.mouseMoves, List.foldl_cons]
      rw [hstep]
    rw [hmain, ih _ rfl (le_max_left _ _) (max_le hmm (by linarith)) hrest]
    simp only [List.map_cons, List.sum_cons]
    rw [← max_sub_sub_right, ← max_assoc,
      max_eq_left (by linarith : minP -
        (rest.map (fun e2 => Smooth.appliedDelta e2.2)).sum ≤ minP),
      sub_sub]

/-- C1: with pitch bounds -π/2 and π/2, every orientation update leaves the
stored target pitch inside [-π/2, π/2]; and from any start inside the band,
a sequence of downward pointer deltas whose applied contributions total 3π
(accumulated target pitch displaced by -3π) leaves the pitch exactly at
-π/2. -/
theorem c1_pitch_clamp :
    (∀ (s : Smooth.LookState ℝ) (dx dy : ℝ), s.locked = true →
      (Smooth.handleMouseMove (-(Real.pi/2)) (Real.pi/2) s dx dy).targetPitch ∈
        Set.Icc (-(Real.pi/2)) (Real.pi/2))
    ∧ (∀ (s : Smooth.LookState ℝ) (evs : List (ℝ × ℝ)), s.locked = true →
        s.targetPitch ∈ Set.Icc (-(Real.pi/2)) (Real.pi/2) →
        (∀ e ∈ evs, 0 ≤ e.2) →
        (evs.map (fun e => Smooth.appliedDelta e.2)).sum = 3 * Real.pi →
        (Smooth.mouseMoves (-(Real.pi/2)) (Real.pi/2) s evs).targetPitch = -(Real.pi/2)) := by
  have hpi := Real.pi_pos
  constructor
  · intro s dx dy hl
    obtain ⟨ty, tp, cy, cp, q, l⟩ := s
    simp only at hl
    cases hl
    simp only [Smooth.handleMouseMove, if_true]
    rw [Set.mem_Icc]
    exact ⟨le_jsClamp _ _ _, jsClamp_le (by linarith) _⟩
  · intro s evs hl hmem hd hsum
    rw [Set.mem_Icc] at hmem
    have hdd : ∀ e ∈ evs, 0 ≤ Smooth.appliedDelta e.2 :=
      fun e he => appliedDelta_nonneg (hd e he)
    rw [mouseMoves_targetPitch_downward (by linarith) evs s hl hmem.1 hmem.2 hdd, hsum]
    exact max_eq_left (by linarith [hmem.2])

/-- Witness for c1_pitch_clamp: a single zero-delta update from pitch 0,
and 376 saturated downward events (applied delta 0.025 each) followed by
one final downward event sized so the applied deltas total exactly 3π. -/
theorem c1_pitch_clamp_w :
    ((Smooth.handleMouseMove (-(Real.pi/2)) (Real.pi/2)
        ⟨0, 0, 0, 0, quatIdentity, true⟩ 0 0).targetPitch ∈
      Set.Icc (-(Real.pi/2)) (Real.pi/2))
    ∧ (Smooth.mouseMoves (-(Real.pi/2)) (Real.pi/2)
        (⟨0, 0, 0, 0, quatIdentity, true⟩ : Smooth.LookState ℝ)
        (List.replicate 376 ((0:ℝ), 100) ++
          [((0:ℝ), (3*Real.pi - 47/5) * (2000/3))])).targetPitch = -(Real.pi/2) := by
  have hpi1 := Real.pi_gt_d6
  have hpi2 := Real.pi_lt_d6
  have hpi := Real.pi_pos
  refine ⟨c1_pitch_clamp.1 _ 0 0 rfl, c1_pitch_clamp.2 _ _ rfl ?_ ?_ ?_⟩
  · show (0:ℝ) ∈ Set.Icc (-(Real.pi/2)) (Real.pi/2)
    rw [Set.mem_Icc]
    constructor <;> linarith
  · intro e he
    rcases List.mem_append.1 he with h | h
    · rw [List.eq_of_mem_replicate h]
      norm_num
    · rw [List.mem_singleton] at h
      subst h
      show (0:ℝ) ≤ (3*Real.pi - 47/5) * (2000/3)
      nlinarith
  · have h100 : Smooth.appliedDelta (100:ℝ) = 1/40 := by
      unfold Smooth.appliedDelta jsClamp
      norm_num [min_def, max_def]
    have hlast : Smooth.appliedDelta ((3*Real.pi - 47/5) * (2000/3)) = 3*Real.pi - 47/5 := by
      unfold Smooth.appliedDelta jsClamp
      rw [show (3*Real.pi - 47/5) * (2000/3) * (3/2000) = 3*Real.pi - 47/5 by ring,
        min_eq_right (by nlinarith), max_eq_right (by nlinarith)]
    rw [List.map_append, List.sum_append, List.map_replicate, List.sum_replicate,
      List.map_singleton, List.sum_singleton, h100, hlast, nsmul_eq_mul]
    push_cast
    ring

/-- One frame of Player.tsx useFrame with only forward held and the camera
at the identity orientation (forward = (0,0,-1)): the velocity update adds
moveSpeed * delta = 8/60 along -z and then multiplies by the damping
factor 0.9. -/
theorem useFrame_forward_id (sqrtF : ℚ → ℚ) (h1 : sqrtF 1 = 1) (pos vel : Vec3 ℚ) :
    (Player.useFrame sqrtF Player.forwardKeys quatIdentity pos vel (1/60)).vel =
      vscale (9/10) (vadd vel ⟨0, 0, -(2/15)⟩) := by
  simp only [Player.useFrame, Player.forwardKeys, Player.getWorldDirection, quatIdentity,
    applyQuaternion, quatMul, quatConj, vcross, vadd, vsub, vscale, vnormalize,
    vlength, vlengthSq]
  norm_num [h1]

/-- Closed form of the velocity after n forward-held frames from rest at the
identity orientation: (0, 0, -(6/5)(1 - 0.9^n)). -/
theorem frames_forward_vel (sqrtF : ℚ → ℚ) (h1 : sqrtF 1 = 1) (pos : Vec3 ℚ) :
    ∀ n : ℕ, (Player.frames sqrtF Player.forwardKeys quatIdentity pos ⟨0, 0, 0⟩ (1/60) n).2 =
      ⟨0, 0, -((6/5) * (1 - (9/10)^n))⟩ := by
  intro n
  induction n with
  | zero =>
    simp only [Player.frames]
    norm_num
  | succ n ih =>
    have hstep : (Player.frames sqrtF Player.forwardKeys quatIdentity pos ⟨0, 0, 0⟩
          (1/60) (n+1)).2 =
        (Player.useFrame sqrtF Player.forwardKeys quatIdentity
          (Player.frames sqrtF Player.forwardKeys quatIdentity pos ⟨0, 0, 0⟩ (1/60) n).1
          (Player.frames sqrtF Player.forwardKeys quatIdentity pos ⟨0, 0, 0⟩ (1/60) n).2
          (1/60)).vel := rfl
    rw [hstep, useFrame_forward_id sqrtF h1, ih]
    simp only [vscale, vadd, Vec3.mk.injEq]
    refine ⟨by norm_num, by norm_num, by ring⟩

/-- C3 counterexample: from rest, 60 frames of held forward at dt = 1/60,
moveSpeed = 8, dampingFactor = 0.9 leave the velocity at
(0, 0, -(6/5)(1 - 0.9^60)); its magnitude (6/5)(1 - 0.9^60) ≈ 1.198 is
below (4/3)(99/100), the bottom of the claimed 1-percent band around
4/3 ≈ 1.33, so the speed does not converge to
moveSpeed * dt / (1 - dampingFactor). -/
theorem c3_speed_cx :
    (Player.frames sqrtOne Player.forwardKeys quatIdentity ⟨0, 0, 0⟩ ⟨0, 0, 0⟩
        (1/60) 60).2 = ⟨0, 0, -((6/5) * (1 - (9/10)^60))⟩
    ∧ (6/5 : ℚ) * (1 - (9/10)^60) < (4/3) * (99/100) := by
  constructor
  · exact frames_forward_vel sqrtOne (by simp [sqrtOne]) ⟨0, 0, 0⟩ 60
  · have ht : (0:ℚ) < (9/10)^60 := by positivity
    nlinarith

/-- C3 (amended): with forward held every frame from rest, the velocity is
(0, 0, -(moveSpeed * dt * dampingFactor / (1 - dampingFactor)) * (1 - 0.9^n))
after n frames — geometric convergence to
moveSpeed * dt * dampingFactor / (1 - dampingFactor) = 1.2 (the damping is
applied after the input is added, so the steady state carries the extra
factor dampingFactor) — and after 60 frames the speed is within 1 percent
of 1.2. -/
theorem c3_velocity_geometric (sqrtF : ℚ → ℚ) (h1 : sqrtF 1 = 1) (pos : Vec3 ℚ) :
    (∀ n : ℕ, (Player.frames sqrtF Player.forwardKeys quatIdentity pos ⟨0, 0, 0⟩
        (1/60) n).2 =
      ⟨0, 0, -((8 * (1/60) * (9/10) / (1 - 9/10)) * (1 - (9/10)^n))⟩)
    ∧ ((8 * (1/60) * (9/10) / (1 - 9/10) : ℚ) * (99/100) <
        -((Player.frames sqrtF Player.forwardKeys quatIdentity pos ⟨0, 0, 0⟩
            (1/60) 60).2.z)
      ∧ -((Player.frames sqrtF Player.forwardKeys quatIdentity pos ⟨0, 0, 0⟩
            (1/60) 60).2.z) ≤ 8 * (1/60) * (9/10) / (1 - 9/10)) := by
  have hc : (8 * (1/60) * (9/10) / (1 - 9/10) : ℚ) = 6/5 := by norm_num
  constructor
  · intro n
    rw [frames_forward_vel sqrtF h1 pos n, hc]
  · rw [frames_forward_vel sqrtF h1 pos 60, hc]
    have hq : ((9:ℚ)/10)^60 < 1/100 := by norm_num
    have ht : (0:ℚ) < (9/10)^60 := by positivity
    constructor
    · simp only
      nlinarith
    · simp only
      nlinarith

/-- Witness for c3_velocity_geometric with the concrete square-root
stand-in, projected at n = 60. -/
theorem c3_velocity_geometric_w :
    (Player.frames sqrtOne Player.forwardKeys quatIdentity ⟨0, 0, 0⟩ ⟨0, 0, 0⟩
        (1/60) 60).2 =
      ⟨0, 0, -((8 * (1/60) * (9/10) / (1 - 9/10)) * (1 - (9/10)^60))⟩ :=
  (c3_velocity_geometric sqrtOne (by simp [sqrtOne]) ⟨0, 0, 0⟩).1 60
